import Mathlib

/-!
Shallow embedding of `source/main.py` from the LPR-stations-data-viewer
repository, covering the data-aggregation core: decimal value handling
(`decimal.Decimal`), the unit conversion table and `format_unit`, the
record-reconciliation loop of `get_measurements`, the pagination loop of
`get_terms` / `set_terms`, the fail-soft JSON transport `get_json`, and the
index-guard of `MainWindow.update_data`.

Python's `decimal.Decimal` is modelled as a coefficient/exponent pair
(`Dec`), exactly its internal representation.  Subtraction and the `/100`
division are modelled as exact, which agrees with Python whenever the
result fits the 28-significant-digit default context (the untrapped
context rounding of wider intermediate results is outside the model);
`round`/`quantize`, whose context overflow *is* trapped as
`decimal.InvalidOperation`, is modelled with its context checks
(`quantizeOk`).  Special values (NaN, Infinity), underscore digit grouping
and surrounding whitespace in `Decimal(str)` are outside the model.
Python exceptions are modelled with `Except`: an `Except.error` value is a
raised exception propagating to the caller.
-/

/-- Python `decimal.Decimal`: the number `coeff * 10 ^ exp`.
The representation is not normalised (trailing zeros of `coeff` are
significant for printing), exactly as in Python. -/
structure Dec where
  coeff : ℤ
  exp : ℤ
deriving DecidableEq

/-- Digit characters of a natural number, most significant first. -/
def natChars (n : ℕ) : List Char :=
  Nat.toDigits 10 n

/-- Digit characters of an integer, with a leading minus sign if negative. -/
def intChars (i : ℤ) : List Char :=
  (if i < 0 then ['-'] else []) ++ natChars i.natAbs

/-- Characters of Python `str(Decimal)`: the to-scientific-string algorithm
of the General Decimal Arithmetic specification, as implemented by
`decimal.Decimal.__str__`. -/
def decChars (a : Dec) : List Char :=
  let ds := natChars a.coeff.natAbs
  let n : ℤ := (ds.length : ℤ)
  let adjusted : ℤ := a.exp + n - 1
  let sgn : List Char := if a.coeff < 0 then ['-'] else []
  if a.exp ≤ 0 ∧ -6 ≤ adjusted then
    if a.exp = 0 then sgn ++ ds
    else if 0 < n + a.exp then
      sgn ++ ds.take (n + a.exp).toNat ++ ['.'] ++ ds.drop (n + a.exp).toNat
    else
      sgn ++ ['0', '.'] ++ List.replicate (-a.exp - n).toNat '0' ++ ds
  else
    sgn ++ (if ds.length = 1 then ds else ds.take 1 ++ ['.'] ++ ds.drop 1)
      ++ ['E'] ++ (if adjusted < 0 then [] else ['+']) ++ intChars adjusted

/-- Python `str(Decimal)` / `f-string` rendering of a `Dec`. -/
def Dec.toString (a : Dec) : String :=
  ⟨decChars a⟩

/-- Exact `Decimal` subtraction: operands are aligned to the smaller
exponent and the coefficients subtracted, as Python does for operands
within context precision. -/
def Dec.sub (a b : Dec) : Dec :=
  let e := min a.exp b.exp
  ⟨a.coeff * 10 ^ (a.exp - e).toNat - b.coeff * 10 ^ (b.exp - e).toNat, e⟩

/-- Python `Decimal / 100` (the `'pa' -> 'гПа'` lambda).  The quotient is
always exact; per the decimal specification trailing zeros are removed
down to, but not below, the ideal exponent `a.exp`. -/
def Dec.div100 (a : Dec) : Dec :=
  if a.coeff % 100 = 0 then ⟨a.coeff / 100, a.exp⟩
  else if a.coeff % 10 = 0 then ⟨a.coeff / 10, a.exp - 1⟩
  else ⟨a.coeff, a.exp - 2⟩

/-- The rescale step of Python `round(d, n)` on a `Decimal`: the value
re-expressed at exponent `-n`, rounding half-even (the default context
rounding).  The context checks under which `quantize` instead signals
`InvalidOperation` are applied on this result by `pyRound`. -/
def Dec.roundTo (a : Dec) (n : ℤ) : Dec :=
  let t := -n
  if t ≤ a.exp then ⟨a.coeff * 10 ^ (a.exp - t).toNat, t⟩
  else
    let m : ℤ := 10 ^ (t - a.exp).toNat
    let q := Int.fdiv a.coeff m
    let r := a.coeff - q * m
    if 2 * r < m then ⟨q, t⟩
    else if m < 2 * r then ⟨q + 1, t⟩
    else if q % 2 = 0 then ⟨q, t⟩ else ⟨q + 1, t⟩

/-- Numeric value of a digit character, if it is one. -/
def splitDigits : List Char → List ℕ × List Char
  | [] => ([], [])
  | c :: cs =>
    if c.isDigit then
      let p := splitDigits cs
      ((c.toNat - 48) :: p.1, p.2)
    else ([], c :: cs)

/-- Value of a digit list, most significant first. -/
def digitsNum (ds : List ℕ) : ℤ :=
  ds.foldl (fun a d => a * 10 + (d : ℤ)) 0

/-- Exponent part of a decimal literal (after `e`/`E`): optional sign and a
nonempty run of digits consuming the remaining input. -/
def parseExpDigits (cs : List Char) : Option ℤ :=
  let p : ℤ × List Char :=
    match cs with
    | '-' :: t => (-1, t)
    | '+' :: t => (1, t)
    | _ => (1, cs)
  let d := splitDigits p.2
  if d.1.isEmpty ∨ ¬d.2.isEmpty then none else some (p.1 * digitsNum d.1)

/-- Python `Decimal(str)` on the numeric grammar
`sign? digits? (. digits?)? ([eE] sign? digits)?` (at least one digit
before the exponent marker); `none` models the `InvalidOperation`
(`ConversionSyntax`) exception that `get_measurements` catches.  Trailing
zeros are kept, so `Decimal('300.00')` is `⟨30000, -2⟩`. -/
def parseDecimal (s : String) : Option Dec :=
  let cs := s.data
  let p : ℤ × List Char :=
    match cs with
    | '-' :: t => (-1, t)
    | '+' :: t => (1, t)
    | _ => (1, cs)
  let ip := splitDigits p.2
  let fp : List ℕ × List Char :=
    match ip.2 with
    | '.' :: t => splitDigits t
    | _ => ([], ip.2)
  if ip.1.isEmpty ∧ fp.1.isEmpty then none
  else
    let coeff : ℤ := p.1 * digitsNum (ip.1 ++ fp.1)
    let e0 : ℤ := -(fp.1.length : ℤ)
    match fp.2 with
    | [] => some ⟨coeff, e0⟩
    | 'e' :: t => (parseExpDigits t).map (fun ex => ⟨coeff, e0 + ex⟩)
    | 'E' :: t => (parseExpDigits t).map (fun ex => ⟨coeff, e0 + ex⟩)
    | _ => none

/-- A Python runtime value flowing through `format_unit`: either a
`Decimal` or a plain string (the `'---'` sentinel). -/
inductive Val where
  | str (s : String)
  | dec (d : Dec)
deriving DecidableEq

/-- A Python exception that propagates out of the modelled code:
`TypeError` from applying numeric operations to a string, and
`decimal.InvalidOperation` signalled by `round`/`quantize` when the result
does not fit the default context (`KeyError` and `IndexError` are caught
where they arise and so never escape). -/
inductive PyErr where
  | typeError
  | invalidOperation
deriving DecidableEq

/-- The three kinds of conversion lambdas appearing in `convert_table`. -/
inductive ConvKind where
  | subK273
  | divBy100
  | ident
deriving DecidableEq

/-- `dict.get`-style association list lookup. -/
def alookup {β : Type} : List (String × β) → String → Option β
  | [], _ => none
  | (k, v) :: rest, key => if key = k then some v else alookup rest key

/-- The static `convert_table` of `main.py`: a nested dict keyed by source
unit then target unit. -/
def convert_table : List (String × List (String × ConvKind)) :=
  [("k", [("C", ConvKind.subK273)]),
   ("pa", [("гПа", ConvKind.divBy100)]),
   ("code table", [("кодовая таблица", ConvKind.ident)]),
   ("degree true", [("°", ConvKind.ident)]),
   ("kg m-2", [("мм", ConvKind.ident)]),
   ("m", [("м", ConvKind.ident)]),
   ("m/s", [("м/с", ConvKind.ident)]),
   ("min", [("мин", ConvKind.ident)])]

/-- `table[base][target]`, where a missing outer or inner key is the
`KeyError` that `format_unit` catches (collapsed to `none`). -/
def tableLookup (base target : String) : Option ConvKind :=
  match alookup convert_table base with
  | some inner => alookup inner target
  | none => none

/-- Applying a conversion lambda to a runtime value.  The identity lambdas
accept any value; `x - Decimal('273.15')` and `x / 100` raise `TypeError`
on a string operand. -/
def applyConv : ConvKind → Val → Except PyErr Val
  | ConvKind.ident, v => .ok v
  | ConvKind.subK273, Val.dec d => .ok (Val.dec (d.sub ⟨27315, -2⟩))
  | ConvKind.divBy100, Val.dec d => .ok (Val.dec d.div100)
  | ConvKind.subK273, Val.str _ => .error PyErr.typeError
  | ConvKind.divBy100, Val.str _ => .error PyErr.typeError

/-- Whether a quantized result fits Python's default decimal context
(`prec=28`, `Emin=-999999`, `Emax=999999`, so `Etiny=-1000026`):
`quantize` signals `InvalidOperation` unless the target exponent lies in
`[Etiny, Emax]`, the result coefficient has at most `prec` digits, and the
result's adjusted exponent is at most `Emax`.  (This single condition on
the rescaled result is equivalent to CPython's pre- and post-rescale
checks in `Decimal.quantize`.) -/
def quantizeOk (r : Dec) : Bool :=
  decide (-1000026 ≤ r.exp ∧ r.exp ≤ 999999 ∧
    (natChars r.coeff.natAbs).length ≤ 28 ∧
    r.exp + ((natChars r.coeff.natAbs).length : ℤ) - 1 ≤ 999999)

/-- Python `round(res, prec)`: rescales a `Decimal` half-even, raising
`decimal.InvalidOperation` when the quantized result does not fit the
default context; raises `TypeError` on a string. -/
def pyRound : Val → ℤ → Except PyErr Val
  | Val.dec d, n =>
    let r := d.roundTo n
    if quantizeOk r then .ok (Val.dec r) else .error PyErr.invalidOperation
  | Val.str _, _ => .error PyErr.typeError

/-- `f-string` rendering of a runtime value. -/
def valStr : Val → String
  | Val.str s => s
  | Val.dec d => d.toString

/-- `format_unit(value, base, target, prec)` of `main.py`: look up the
conversion lambda (a `KeyError` falls back to the unconverted value), then
optionally round, then format.  `TypeError` from a lambda or from `round`
propagates. -/
def format_unit (value : Val) (base target : String) (prec : Option ℤ) :
    Except PyErr String :=
  match (match tableLookup base target with
         | some f => applyConv f value
         | none => .ok value) with
  | .error e => .error e
  | .ok res =>
    match prec with
    | some p =>
      match pyRound res p with
      | .error e => .error e
      | .ok r => .ok (valStr r)
    | none => .ok (valStr res)

/-! ## The reconciliation engine: `get_measurements` -/

/-- One record of the generic records page, with the fields that
`get_measurements` reads (`id`, `code`, `value`, `unit`; the key's station
component is the queried station, not a record field). -/
structure SrvRec where
  id : ℤ
  code : String
  station : String
  value : String
  unit : String
deriving DecidableEq

/-- The mutable state of one `get_measurements` pass: the `ready` dict of
winning ids and the nested `meas_for_table` dict, both keyed by
`(code, station)`. -/
structure MeasState where
  ready : String × String → Option ℤ
  meas : String × String → Option String

/-- The empty dicts at the start of a pass. -/
def initState : MeasState :=
  ⟨fun _ => none, fun _ => none⟩

/-- `wanted_unit.get(unit, unit)`: the configured display unit, defaulting
to the raw unit.  The configuration section is a parameter of the model. -/
def wantedUnit (wanted : List (String × String)) (u : String) : String :=
  (alookup wanted u).getD u

/-- The text computed for one record in `get_measurements`: parse the value
(`'---'` on failure), then `format_unit` with `prec=1` when the display
unit is `'C'` and no precision otherwise. -/
def recText (wanted : List (String × String)) (r : SrvRec) :
    Except PyErr String :=
  let value : Val :=
    match parseDecimal r.value with
    | some d => Val.dec d
    | none => Val.str "---"
  let wu := wantedUnit wanted r.unit
  if wu = "C" then format_unit value r.unit wu (some 1)
  else format_unit value r.unit wu none

/-- Writing `ready[(code, station)] = id` and
`meas_for_table[code][station] = text`. -/
def storeKey (st : MeasState) (k : String × String) (i : ℤ) (t : String) :
    MeasState :=
  ⟨fun k' => if k' = k then some i else st.ready k',
   fun k' => if k' = k then some t else st.meas k'⟩

/-- The body of the `for r in resp` loop of `get_measurements`: with
`prev = ready.get((code, station), float('inf'))`, the record is skipped
when `prev < id`; otherwise its id and formatted text are stored
(a missing `prev` is `inf`, which is never `< id`). -/
def measStep (wanted : List (String × String)) (station : String)
    (st : MeasState) (r : SrvRec) : Except PyErr MeasState :=
  match st.ready (r.code, station) with
  | some p =>
    if p < r.id then .ok st
    else
      match recText wanted r with
      | .error e => .error e
      | .ok t => .ok (storeKey st (r.code, station) r.id t)
  | none =>
    match recText wanted r with
    | .error e => .error e
    | .ok t => .ok (storeKey st (r.code, station) r.id t)

/-- Processing one station's response list; an exception from any record
aborts the whole pass. -/
def processResp (wanted : List (String × String)) (station : String) :
    List SrvRec → MeasState → Except PyErr MeasState
  | [], st => .ok st
  | r :: rs, st =>
    match measStep wanted station st r with
    | .error e => .error e
    | .ok st' => processResp wanted station rs st'

/-- `get_measurements`: the queried stations with their responses, in
iteration order over servers and stations, folded over the shared dicts. -/
def get_measurements (wanted : List (String × String)) :
    List (String × List SrvRec) → MeasState → Except PyErr MeasState
  | [], st => .ok st
  | (station, resp) :: qs, st =>
    match processResp wanted station resp st with
    | .error e => .error e
    | .ok st' => get_measurements wanted qs st'

/-- Projection of a pass outcome onto one cell, for stating concrete
results without naming the whole state. -/
def cellOf (x : Except PyErr MeasState) (k : String × String) :
    Except PyErr (Option String) :=
  match x with
  | .error e => .error e
  | .ok st => .ok (st.meas k)

/-! ## Term discovery: `get_terms` and `set_terms` -/

/-- One record of the records page as read by `get_terms`
(`id` and `point_at`). -/
structure TRow where
  id : ℤ
  point_at : ℤ
deriving DecidableEq

/-- The body of the `for row in resp` loop of `get_terms`: `last_id` is
overwritten with each row's id and the row's `point_at` joins the term
set. -/
def batchStep : ℤ × Finset ℤ → List TRow → ℤ × Finset ℤ
  | s, [] => s
  | s, row :: rest => batchStep (row.id, insert row.point_at s.2) rest

/-- The `while True` pagination loop of `get_terms` for one server,
modelled with explicit fuel (`none` = fuel exhausted; the source loop has
no bound of its own).  The server is a function from the `lastid`
parameter to the response batch; an empty batch breaks the loop. -/
def getTermsLoop (server : ℤ → List TRow) :
    ℕ → ℤ → Finset ℤ → Option (Finset ℤ)
  | 0, _, _ => none
  | fuel + 1, lastid, terms =>
    match server lastid with
    | [] => some terms
    | row :: rest =>
      let s := batchStep (lastid, terms) (row :: rest)
      getTermsLoop server fuel s.1 s.2

/-- `MainWindow.set_terms`: `sorted(filter(bool, get_terms()),
reverse=True)` — the descending sort of the nonzero terms. -/
def set_terms_list (terms : Finset ℤ) : List ℤ :=
  (terms.filter (fun t => t ≠ 0)).sort (· ≥ ·)

/-! ## Transport: `get_json` -/

/-- A decoded JSON value, as returned by `response.json()`. -/
inductive JsonVal where
  | null
  | bool (b : Bool)
  | num (n : ℤ)
  | str (s : String)
  | arr (xs : List JsonVal)
  | obj (fields : List (String × JsonVal))

/-- The `requests` exception classes distinguished by `get_json`'s
`except` clause.  `requests.exceptions.ConnectTimeout` subclasses
`ConnectionError`, so it is caught by that clause. -/
inductive ReqExc where
  | jsonDecodeError
  | connectionError
  | readTimeout
  | otherExc
deriving DecidableEq

/-- The failure situations named by the specification, mapped to the
exception class `requests.get(url, timeout=1).json()` raises for them. -/
inductive FailureCause where
  | connRefused
  | connectTimeout
  | readTimeoutHit
  | invalidJsonBody

/-- Exception class raised for each failure cause. -/
def causeExc : FailureCause → ReqExc
  | FailureCause.connRefused => ReqExc.connectionError
  | FailureCause.connectTimeout => ReqExc.connectionError
  | FailureCause.readTimeoutHit => ReqExc.readTimeout
  | FailureCause.invalidJsonBody => ReqExc.jsonDecodeError

/-- `get_json`: the outcome of `requests.get(url, timeout=1).json()` with
the three handled exception classes converted to an empty list; any other
exception propagates. -/
def get_json (outcome : Except ReqExc JsonVal) : Except ReqExc JsonVal :=
  match outcome with
  | .error ReqExc.jsonDecodeError => .ok (JsonVal.arr [])
  | .error ReqExc.connectionError => .ok (JsonVal.arr [])
  | .error ReqExc.readTimeout => .ok (JsonVal.arr [])
  | .error e => .error e
  | .ok v => .ok v

/-! ## `MainWindow.update_data` -/

/-- Python list indexing `xs[i]`: negative indices count from the end;
`none` is the `IndexError` that `update_data` catches. -/
def pyIndex {α : Type} (xs : List α) (i : ℤ) : Option α :=
  if 0 ≤ i then xs.get? i.toNat
  else if 0 ≤ (xs.length : ℤ) + i then xs.get? ((xs.length : ℤ) + i).toNat
  else none

/-- The widgets `update_data` touches: the displayed table matrix and the
last-update label. -/
structure ViewState where
  tableCells : String × String → Option String
  lastUpdateLabel : String

/-- `MainWindow.update_data`: set the waiting label, index the term list at
the combo-box selection (an `IndexError` returns early, leaving the
table as it was), and otherwise replace the table contents and the label.
The measurement fetch `self.update_table_values(get_measurements(...))` is
the function parameter `fetch`; `now` is the wall clock reading. -/
def update_data (terms : List ℤ) (currentIndex : ℤ)
    (fetch : ℤ → (String × String → Option String)) (now : String)
    (st : ViewState) : ViewState :=
  match pyIndex terms currentIndex with
  | none => { st with lastUpdateLabel := "Обновление, подождите..." }
  | some term =>
    { tableCells := fetch term,
      lastUpdateLabel := "Последнее обновление: " ++ now }

/-! ## Winner selection, as performed key-wise by the `ready` dict -/

/-- The record whose data the reconciliation loop leaves stored for a key,
given the records with that key in processing order and an optional
already-stored winner: a new record is skipped exactly when the stored
winner's id is smaller. -/
def selWinner : Option SrvRec → List SrvRec → Option SrvRec
  | w, [] => w
  | none, r :: rs => selWinner (some r) rs
  | some w, r :: rs =>
    if w.id < r.id then selWinner (some w) rs else selWinner (some r) rs

/-- The value of a non-raising computation. -/
def okVal {α : Type} : Except PyErr α → Option α
  | .ok a => some a
  | .error _ => none

/-! ## Theorems -/

/-- C3: for every call to `get_json`, a timeout (connect or read), a
refused connection, or an invalid JSON body yields the empty list, and no
exception reaches the caller. -/
theorem get_json_failsoft :
    ∀ c : FailureCause, get_json (.error (causeExc c)) = .ok (JsonVal.arr []) := by
  intro c
  cases c <;> rfl

/-- C10: a response body that is valid JSON but not an array (e.g. a JSON
object) is returned by `get_json` to the caller unchanged; only the three
handled failure classes are mapped to the empty list. -/
theorem get_json_nonlist_through :
    ∀ v : JsonVal, get_json (.ok v) = .ok v := by
  intro v
  rfl

/-- C9: converting `101325` from `'pa'` to `'гПа'` with no precision given
returns exactly `'1013.25'`. -/
theorem pressure_conversion_exact :
    format_unit (Val.dec ⟨101325, 0⟩) "pa" "гПа" none = .ok "1013.25" := rfl

/-- C6 counterexample: converting `300.00` Kelvin to Celsius with
precision 1 returns `'26.8'` (exact difference `26.85`, rounded half-even
by `decimal`), not `'26.9'` as claimed. -/
theorem kelvin_26_9_refuted :
    format_unit (Val.dec ⟨30000, -2⟩) "k" "C" (some 1) = .ok "26.8" ∧
    ("26.8" : String) ≠ "26.9" :=
  ⟨rfl, by decide⟩

/-- C6 amended: converting `300.00` Kelvin to Celsius with precision 1
yields the exact decimal difference `26.85`, which ROUND_HALF_EVEN takes
to `26.8`; the returned string is `'26.8'`. -/
theorem kelvin_round_half_even :
    Dec.sub ⟨30000, -2⟩ ⟨27315, -2⟩ = ⟨2685, -2⟩ ∧
    Dec.roundTo ⟨2685, -2⟩ 1 = ⟨268, -1⟩ ∧
    format_unit (Val.dec ⟨30000, -2⟩) "k" "C" (some 1) = .ok "26.8" :=
  ⟨by decide, by decide, rfl⟩

/-- C7: when indexing the term list at the current combo-box selection
fails (no terms yet, or a stale index), `update_data` returns before
fetching or storing any measurements: the displayed matrix is unchanged
and the result does not depend on the fetch function or the clock. -/
theorem update_data_abort_keeps_table (terms : List ℤ) (idx : ℤ)
    (f g : ℤ → (String × String → Option String)) (now now' : String)
    (st : ViewState) (h : pyIndex terms idx = none) :
    (update_data terms idx f now st).tableCells = st.tableCells ∧
    update_data terms idx f now st = update_data terms idx g now' st := by
  simp [update_data, h]

/-- C7 witness: with no terms available the pass aborts and the table is
untouched. -/
theorem update_data_abort_keeps_table_witness :
    (update_data [] 0 (fun _ _ => some "new") "12:00"
        ⟨fun _ => some "old", "lbl"⟩).tableCells =
      (⟨fun _ => some "old", "lbl"⟩ : ViewState).tableCells ∧
    update_data [] 0 (fun _ _ => some "new") "12:00" ⟨fun _ => some "old", "lbl"⟩ =
      update_data [] 0 (fun _ _ => none) "13:00" ⟨fun _ => some "old", "lbl"⟩ :=
  update_data_abort_keeps_table [] 0 _ _ "12:00" "13:00" _ rfl

/-- C8 counterexample: for the numeric value `1E+30` and a
`(base, target)` pair absent from `convert_table`, requesting precision 1
does not return the value: the quantized coefficient would need 32 digits,
so `round` signals `decimal.InvalidOperation` under the default 28-digit
context and the exception propagates out of `format_unit`. -/
theorem format_unit_huge_round_refuted :
    tableLookup "hPa" "hPa" = none ∧
    format_unit (Val.dec ⟨1, 30⟩) "hPa" "hPa" (some 1) =
      .error PyErr.invalidOperation ∧
    ∀ s : String,
      format_unit (Val.dec ⟨1, 30⟩) "hPa" "hPa" (some 1) ≠ .ok s := by
  refine ⟨rfl, rfl, fun s h => ?_⟩
  rw [show format_unit (Val.dec ⟨1, 30⟩) "hPa" "hPa" (some 1) =
    .error PyErr.invalidOperation from rfl] at h
  exact Except.noConfusion h

/-- C8 amended: for a numeric value, a `(base, target)` unit pair that is
absent from `convert_table` — and likewise an identity-mapped pair —
passes the value through unchanged: without a precision the rendered
value itself is returned, and with a precision its half-even rounding is
returned when the quantized result fits the default decimal context,
while outside that context `round` raises `decimal.InvalidOperation`. -/
theorem format_unit_identity_through (d : Dec) (b t : String) (p : ℤ)
    (h : tableLookup b t = none ∨ tableLookup b t = some ConvKind.ident) :
    format_unit (Val.dec d) b t none = .ok d.toString ∧
    (quantizeOk (d.roundTo p) = true →
      format_unit (Val.dec d) b t (some p) = .ok ((d.roundTo p).toString)) ∧
    (quantizeOk (d.roundTo p) = false →
      format_unit (Val.dec d) b t (some p) = .error PyErr.invalidOperation) := by
  rcases h with h | h <;>
    exact ⟨by simp [format_unit, h, applyConv, valStr],
      fun hq => by simp [format_unit, h, applyConv, pyRound, hq, valStr],
      fun hq => by simp [format_unit, h, applyConv, pyRound, hq]⟩

/-- C8 witness: an unmapped pair and an identity-mapped pair at a concrete
in-context value, and the out-of-context value `1E+30` raising. -/
theorem format_unit_identity_through_witness :
    (format_unit (Val.dec ⟨25, -1⟩) "hPa" "hPa" none = .ok (Dec.toString ⟨25, -1⟩) ∧
      format_unit (Val.dec ⟨25, -1⟩) "hPa" "hPa" (some 0) =
        .ok (Dec.toString (Dec.roundTo ⟨25, -1⟩ 0))) ∧
    (format_unit (Val.dec ⟨25, -1⟩) "m" "м" none = .ok (Dec.toString ⟨25, -1⟩) ∧
      format_unit (Val.dec ⟨25, -1⟩) "m" "м" (some 0) =
        .ok (Dec.toString (Dec.roundTo ⟨25, -1⟩ 0))) ∧
    format_unit (Val.dec ⟨1, 30⟩) "m" "м" (some 1) = .error PyErr.invalidOperation :=
  ⟨⟨(format_unit_identity_through ⟨25, -1⟩ "hPa" "hPa" 0 (Or.inl rfl)).1,
    (format_unit_identity_through ⟨25, -1⟩ "hPa" "hPa" 0 (Or.inl rfl)).2.1 (by decide)⟩,
   ⟨(format_unit_identity_through ⟨25, -1⟩ "m" "м" 0 (Or.inr rfl)).1,
    (format_unit_identity_through ⟨25, -1⟩ "m" "м" 0 (Or.inr rfl)).2.1 (by decide)⟩,
   (format_unit_identity_through ⟨1, 30⟩ "m" "м" 1 (Or.inr rfl)).2.2 (by decide)⟩

/-- C4 counterexample: on the batch `[{id 5, term 1}, {id 3, term 2}]` the
`lastid` cursor ends at `3`, the id of the final row, although the maximum
id in the batch is `5`. -/
theorem lastid_max_refuted :
    (batchStep (0, ∅) [⟨5, 1⟩, ⟨3, 2⟩]).1 = 3 ∧
    (⟨5, 1⟩ : TRow) ∈ ([⟨5, 1⟩, ⟨3, 2⟩] : List TRow) ∧
    (∀ r ∈ ([⟨5, 1⟩, ⟨3, 2⟩] : List TRow), r.id ≤ 5) ∧
    (3 : ℤ) ≠ 5 := by
  refine ⟨rfl, by decide, by decide, by decide⟩

/-- C4 amended: the `lastid` cursor is advanced to the id of the final
record of the batch (which is the maximum id only when the batch happens
to arrive ordered by id). -/
theorem lastid_is_last_row_id (batch : List TRow) :
    ∀ (s : ℤ × Finset ℤ) (h : batch ≠ []),
      (batchStep s batch).1 = (batch.getLast h).id := by
  induction batch with
  | nil => intro s h; exact absurd rfl h
  | cons row rest ih =>
    intro s h
    cases rest with
    | nil => rfl
    | cons r2 tl =>
      show (batchStep (row.id, insert row.point_at s.2) (r2 :: tl)).1 =
        ((r2 :: tl).getLast (List.cons_ne_nil r2 tl)).id
      exact ih _ (List.cons_ne_nil r2 tl)

/-- C4 witness: a singleton batch advances the cursor to its row's id. -/
theorem lastid_is_last_row_id_witness :
    ([⟨5, 1⟩] : List TRow) ≠ [] ∧ (batchStep (0, ∅) [⟨5, 1⟩]).1 = 5 :=
  ⟨by decide, (lastid_is_last_row_id [⟨5, 1⟩] (0, ∅) (by decide)).trans rfl⟩

/-- C5: the term sequence built by `set_terms` from any discovered term
set is sorted descending with no duplicates and no zero entry; pagination
stops as soon as a batch is empty; and a server answering one page of
three distinct terms and then an empty page yields exactly those three
terms, sorted descending. -/
theorem terms_sorted_dedup_scenario :
    (∀ S : Finset ℤ, (set_terms_list S).Sorted (· ≥ ·) ∧
      (set_terms_list S).Nodup ∧ (0 : ℤ) ∉ set_terms_list S) ∧
    (∀ (server : ℤ → List TRow) (fuel : ℕ) (lastid : ℤ) (terms : Finset ℤ),
      server lastid = [] → getTermsLoop server (fuel + 1) lastid terms = some terms) ∧
    (getTermsLoop (fun lastid => if lastid = 0 then [⟨1, 10⟩, ⟨2, 20⟩, ⟨3, 30⟩] else [])
      2 0 ∅).map set_terms_list = some [30, 20, 10] := by
  refine ⟨fun S => ⟨Finset.sort_sorted _ _, Finset.sort_nodup _ _, fun h0 => ?_⟩,
    fun server fuel lastid terms h => ?_, ?_⟩
  · have hmem := (Finset.mem_sort (α := ℤ) (· ≥ ·)).1 h0
    exact (Finset.mem_filter.1 hmem).2 rfl
  · simp [getTermsLoop, h]
  · have h1 : getTermsLoop
        (fun lastid => if lastid = 0 then [⟨1, 10⟩, ⟨2, 20⟩, ⟨3, 30⟩] else [])
        2 0 ∅ = some (insert 30 (insert 20 (insert 10 (∅ : Finset ℤ)))) := rfl
    have hf : (insert 30 (insert 20 (insert 10 (∅ : Finset ℤ)))).filter
        (fun t => t ≠ 0) = insert 30 (insert 20 (insert 10 (∅ : Finset ℤ))) := by
      ext x
      simp only [Finset.mem_filter, Finset.mem_insert, Finset.not_mem_empty,
        or_false, and_iff_left_iff_imp]
      rintro (rfl | rfl | rfl) <;> decide
    have h2 : set_terms_list (insert 30 (insert 20 (insert 10 (∅ : Finset ℤ)))) =
        [30, 20, 10] := by
      unfold set_terms_list
      rw [hf]
      rw [Finset.sort_insert (· ≥ ·) (by intro b hb; fin_cases hb <;> decide) (by decide)]
      rw [Finset.sort_insert (· ≥ ·) (by intro b hb; fin_cases hb; decide) (by decide)]
      rw [Finset.sort_insert (· ≥ ·) (by intro b hb; fin_cases hb) (by decide)]
      rw [Finset.sort_empty]
    rw [h1, Option.map_some', h2]

/-- C5 witness: a server whose very first page is empty contributes its
accumulated (empty) term set unchanged. -/
theorem terms_sorted_dedup_scenario_witness :
    getTermsLoop (fun _ => ([] : List TRow)) 1 0 ∅ = some ∅ :=
  terms_sorted_dedup_scenario.2.1 (fun _ => []) 0 0 ∅ rfl

/-- C2 counterexample: a record whose value does not parse (empty string)
but whose display unit is `'C'` makes the pass raise `TypeError`: the
`'---'` sentinel reaches `round(res, 1)`.  The pass aborts instead of
continuing. -/
theorem garbled_value_raises :
    parseDecimal "" = none ∧
    get_measurements [] [("5", [⟨1, "b1", "5", "", "C"⟩])] initState =
      .error PyErr.typeError :=
  ⟨rfl, rfl⟩

/-- C2 amended: a record whose value does not parse yields the `'---'`
sentinel cell and the pass continues, provided its display unit is not
`'C'` (no rounding requested) and the `(unit, display unit)` pair is
absent from `convert_table` or identity-mapped; otherwise the sentinel
string reaches decimal arithmetic or `round` and a `TypeError` aborts the
pass. -/
theorem garbled_value_sentinel (wanted : List (String × String))
    (station : String) (r : SrvRec) (rs : List SrvRec) (st : MeasState)
    (hp : parseDecimal r.value = none)
    (hwu : wantedUnit wanted r.unit ≠ "C")
    (htab : tableLookup r.unit (wantedUnit wanted r.unit) = none ∨
      tableLookup r.unit (wantedUnit wanted r.unit) = some ConvKind.ident) :
    recText wanted r = .ok "---" ∧
    ∃ st', measStep wanted station st r = .ok st' ∧
      processResp wanted station (r :: rs) st = processResp wanted station rs st' ∧
      (st' = st ∨ st'.meas (r.code, station) = some "---") := by
  have htext : recText wanted r = .ok "---" := by
    rcases htab with h | h <;>
      simp [recText, hp, hwu, format_unit, h, applyConv, valStr]
  refine ⟨htext, ?_⟩
  cases hready : st.ready (r.code, station) with
  | none =>
    refine ⟨storeKey st (r.code, station) r.id "---", ?_, ?_, ?_⟩
    · simp [measStep, hready, htext]
    · simp [processResp, measStep, hready, htext]
    · exact Or.inr (by simp [storeKey])
  | some p =>
    by_cases hlt : p < r.id
    · refine ⟨st, ?_, ?_, Or.inl rfl⟩
      · simp [measStep, hready, hlt]
      · simp [processResp, measStep, hready, hlt]
    · refine ⟨storeKey st (r.code, station) r.id "---", ?_, ?_, ?_⟩
      · simp [measStep, hready, hlt, htext]
      · simp [processResp, measStep, hready, hlt, htext]
      · exact Or.inr (by simp [storeKey])

/-- C2 witness: an unparsable value with an unconverted unit is stored as
`'---'` and processing moves on. -/
theorem garbled_value_sentinel_witness :
    parseDecimal "" = none ∧
    wantedUnit [] "mm" ≠ "C" ∧
    (recText [] ⟨1, "b1", "0", "", "mm"⟩ = .ok "---" ∧
      ∃ st', measStep [] "0" initState ⟨1, "b1", "0", "", "mm"⟩ = .ok st' ∧
        processResp [] "0" [⟨1, "b1", "0", "", "mm"⟩] initState =
          processResp [] "0" [] st' ∧
        (st' = initState ∨ st'.meas ("b1", "0") = some "---")) :=
  ⟨rfl, by decide,
    garbled_value_sentinel [] "0" ⟨1, "b1", "0", "", "mm"⟩ [] initState rfl
      (by decide) (Or.inl rfl)⟩

/-- The winner selected from a nonempty suffix is the old winner or a list
element, and its id is a lower bound for both. -/
theorem selWinner_some (rs : List SrvRec) :
    ∀ w : SrvRec, ∃ v, selWinner (some w) rs = some v ∧
      (v = w ∨ v ∈ rs) ∧ v.id ≤ w.id ∧ ∀ r ∈ rs, v.id ≤ r.id := by
  induction rs with
  | nil => exact fun w => ⟨w, rfl, Or.inl rfl, le_refl _, by simp⟩
  | cons r rs ih =>
    intro w
    by_cases h : w.id < r.id
    · obtain ⟨v, hv, hmem, hle, hall⟩ := ih w
      refine ⟨v, by simp [selWinner, h, hv], ?_, hle, ?_⟩
      · rcases hmem with h1 | h1
        · exact Or.inl h1
        · exact Or.inr (List.mem_cons_of_mem _ h1)
      · intro x hx
        rcases List.mem_cons.1 hx with rfl | h2
        · exact hle.trans (le_of_lt h)
        · exact hall x h2
    · obtain ⟨v, hv, hmem, hle, hall⟩ := ih r
      have hrw : r.id ≤ w.id := le_of_not_lt h
      refine ⟨v, by simp [selWinner, h, hv], ?_, hle.trans hrw, ?_⟩
      · rcases hmem with h1 | h1
        · exact Or.inr (h1 ▸ List.mem_cons_self r rs)
        · exact Or.inr (List.mem_cons_of_mem _ h1)
      · intro x hx
        rcases List.mem_cons.1 hx with rfl | h2
        · exact hle
        · exact hall x h2

/-- Pairwise-distinct ids identify records within the list. -/
theorem id_inj_of_pairwise :
    ∀ rs : List SrvRec, rs.Pairwise (fun a b => a.id ≠ b.id) →
      ∀ a ∈ rs, ∀ b ∈ rs, a.id = b.id → a = b := by
  intro rs h
  induction rs with
  | nil => intro a ha; cases ha
  | cons x xs ih =>
    obtain ⟨hx, hxs⟩ := List.pairwise_cons.1 h
    intro a ha b hb heq
    rcases List.mem_cons.1 ha with rfl | ha' <;> rcases List.mem_cons.1 hb with rfl | hb'
    · rfl
    · exact absurd heq (hx b hb')
    · exact absurd heq.symm (hx a ha')
    · exact ih hxs a ha' b hb' heq

/-- Invariant of the reconciliation loop at one key: if a state agrees
with a virtual winner `w` at key `(c, station)` and every record of the
(single-code) response formats without an exception, then processing ends
in a state agreeing with `selWinner w rs` at that key. -/
theorem processResp_proj (wanted : List (String × String)) (station c : String) :
    ∀ rs : List SrvRec, (∀ r ∈ rs, r.code = c) →
      (∀ r ∈ rs, ∃ t, recText wanted r = .ok t) →
      ∀ (w : Option SrvRec) (st : MeasState),
        st.ready (c, station) = w.map SrvRec.id →
        st.meas (c, station) = w.bind (fun v => okVal (recText wanted v)) →
        ∃ st', processResp wanted station rs st = .ok st' ∧
          st'.ready (c, station) = (selWinner w rs).map SrvRec.id ∧
          st'.meas (c, station) = (selWinner w rs).bind (fun v => okVal (recText wanted v)) := by
  intro rs
  induction rs with
  | nil =>
    intro _ _ w st h1 h2
    cases w <;> exact ⟨st, rfl, h1, h2⟩
  | cons r rs ih =>
    intro hc hok w st hready hmeas
    have hcr : r.code = c := hc r (List.mem_cons_self r rs)
    obtain ⟨t, ht⟩ := hok r (List.mem_cons_self r rs)
    have hc' : ∀ x ∈ rs, x.code = c := fun x hx => hc x (List.mem_cons_of_mem _ hx)
    have hok' : ∀ x ∈ rs, ∃ u, recText wanted x = .ok u :=
      fun x hx => hok x (List.mem_cons_of_mem _ hx)
    have hkey : (r.code, station) = (c, station) := by rw [hcr]
    cases w with
    | none =>
      have hr0 : st.ready (r.code, station) = none := by rw [hkey]; exact hready
      have hstep : measStep wanted station st r =
          .ok (storeKey st (r.code, station) r.id t) := by
        simp [measStep, hr0, ht]
      have hnext : processResp wanted station (r :: rs) st =
          processResp wanted station rs (storeKey st (r.code, station) r.id t) := by
        simp [processResp, hstep]
      rw [hnext]
      have hsel : selWinner none (r :: rs) = selWinner (some r) rs := rfl
      rw [hsel]
      exact ih hc' hok' (some r) _
        (by simp [storeKey, hkey]) (by simp [storeKey, hkey, okVal, ht])
    | some v =>
      have hr0 : st.ready (r.code, station) = some v.id := by rw [hkey]; exact hready
      by_cases hlt : v.id < r.id
      · have hnext : processResp wanted station (r :: rs) st =
            processResp wanted station rs st := by
          simp [processResp, measStep, hr0, hlt]
        rw [hnext]
        have hsel : selWinner (some v) (r :: rs) = selWinner (some v) rs := by
          simp [selWinner, hlt]
        rw [hsel]
        exact ih hc' hok' (some v) st hready hmeas
      · have hstep : measStep wanted station st r =
            .ok (storeKey st (r.code, station) r.id t) := by
          simp [measStep, hr0, hlt, ht]
        have hnext : processResp wanted station (r :: rs) st =
            processResp wanted station rs (storeKey st (r.code, station) r.id t) := by
          simp [processResp, hstep]
        rw [hnext]
        have hsel : selWinner (some v) (r :: rs) = selWinner (some r) rs := by
          simp [selWinner, hlt]
        rw [hsel]
        exact ih hc' hok' (some r) _
          (by simp [storeKey, hkey]) (by simp [storeKey, hkey, okVal, ht])

/-- A one-query pass is the processing of that query's response. -/
theorem get_meas_single (wanted : List (String × String)) (station : String)
    (rs : List SrvRec) (st : MeasState) :
    get_measurements wanted [(station, rs)] st = processResp wanted station rs st := by
  cases h : processResp wanted station rs st <;> simp [get_measurements, h]

/-- From the empty dicts, a nonempty single-code response leaves at its key
the formatted text of a minimum-id record. -/
theorem processResp_min (wanted : List (String × String)) (station c : String)
    (rs : List SrvRec) (hne : rs ≠ []) (hc : ∀ r ∈ rs, r.code = c)
    (hok : ∀ r ∈ rs, ∃ t, recText wanted r = .ok t) :
    ∃ v st', processResp wanted station rs initState = .ok st' ∧
      v ∈ rs ∧ (∀ r ∈ rs, v.id ≤ r.id) ∧
      st'.meas (c, station) = okVal (recText wanted v) := by
  cases rs with
  | nil => exact absurd rfl hne
  | cons r0 rest =>
    obtain ⟨st', hrun, _, hmeas⟩ :=
      processResp_proj wanted station c (r0 :: rest) hc hok none initState rfl rfl
    obtain ⟨v, hv, hmem, hle, hall⟩ := selWinner_some rest r0
    have hsel : selWinner none (r0 :: rest) = some v := hv
    refine ⟨v, st', hrun, ?_, ?_, ?_⟩
    · rcases hmem with h1 | h1
      · exact h1 ▸ List.mem_cons_self r0 rest
      · exact List.mem_cons_of_mem _ h1
    · intro x hx
      rcases List.mem_cons.1 hx with rfl | h2
      · exact hle
      · exact hall x h2
    · rw [hmeas, hsel]
      rfl

/-- C1 amended: within one reconciliation pass, the stored cell for a
`(code, station)` key is derived from the record with the *minimum* id
(`prev < _id` skips the newer record, and the `float('inf')` default
admits the first), and — for pairwise-distinct ids — the winning record
and the stored cell are the same for every arrival order, provided every
record of the key formats without an exception. -/
theorem reconcile_keeps_min_id (wanted : List (String × String))
    (station c : String) (rs : List SrvRec) (hne : rs ≠ [])
    (hc : ∀ r ∈ rs, r.code = c)
    (hdist : rs.Pairwise (fun a b => a.id ≠ b.id))
    (hok : ∀ r ∈ rs, ∃ t, recText wanted r = .ok t) :
    ∃ v st', get_measurements wanted [(station, rs)] initState = .ok st' ∧
      v ∈ rs ∧ (∀ r ∈ rs, v.id ≤ r.id) ∧
      st'.meas (c, station) = okVal (recText wanted v) ∧
      ∀ rs', rs.Perm rs' →
        ∃ st'', get_measurements wanted [(station, rs')] initState = .ok st'' ∧
          st''.meas (c, station) = st'.meas (c, station) := by
  obtain ⟨v, st', hrun, hmem, hmin, hcell⟩ :=
    processResp_min wanted station c rs hne hc hok
  refine ⟨v, st', by rw [get_meas_single]; exact hrun, hmem, hmin, hcell, ?_⟩
  intro rs' hperm
  have hne' : rs' ≠ [] := by
    intro h
    subst h
    exact hne (List.Perm.eq_nil hperm)
  have hc' : ∀ r ∈ rs', r.code = c := fun r hr => hc r (hperm.mem_iff.2 hr)
  have hok' : ∀ r ∈ rs', ∃ t, recText wanted r = .ok t :=
    fun r hr => hok r (hperm.mem_iff.2 hr)
  obtain ⟨v', st'', hrun', hmem', hmin', hcell'⟩ :=
    processResp_min wanted station c rs' hne' hc' hok'
  have hv'rs : v' ∈ rs := hperm.mem_iff.2 hmem'
  have hvrs' : v ∈ rs' := hperm.mem_iff.1 hmem
  have hideq : v'.id = v.id := le_antisymm (hmin' v hvrs' |>.trans (le_refl _)) (hmin v' hv'rs)
  have hvv : v' = v := id_inj_of_pairwise rs hdist v' hv'rs v hmem hideq
  refine ⟨st'', by rw [get_meas_single]; exact hrun', ?_⟩
  rw [hcell', hvv, hcell]

/-- C1 witness: two records with ids 5 and 7 on the key
`("12001", "5")`; the pass succeeds and yields the minimum-id record's
text, in either arrival order. -/
theorem reconcile_keeps_min_id_witness :
    ∃ v st', get_measurements []
        [("5", [⟨5, "12001", "5", "10", "u"⟩, ⟨7, "12001", "5", "20", "u"⟩])]
        initState = .ok st' ∧
      v ∈ [⟨5, "12001", "5", "10", "u"⟩, ⟨7, "12001", "5", "20", "u"⟩] ∧
      (∀ r ∈ ([⟨5, "12001", "5", "10", "u"⟩, ⟨7, "12001", "5", "20", "u"⟩] : List SrvRec),
        v.id ≤ r.id) ∧
      st'.meas ("12001", "5") = okVal (recText [] v) ∧
      ∀ rs', List.Perm [⟨5, "12001", "5", "10", "u"⟩, ⟨7, "12001", "5", "20", "u"⟩] rs' →
        ∃ st'', get_measurements [] [("5", rs')] initState = .ok st'' ∧
          st''.meas ("12001", "5") = st'.meas ("12001", "5") :=
  reconcile_keeps_min_id [] "5" "12001"
    [⟨5, "12001", "5", "10", "u"⟩, ⟨7, "12001", "5", "20", "u"⟩]
    (by simp) (by decide) (by decide)
    (fun r hr => by
      rcases List.mem_cons.1 hr with rfl | hr'
      · exact ⟨"10", rfl⟩
      · rcases List.mem_cons.1 hr' with rfl | hr''
        · exact ⟨"20", rfl⟩
        · cases hr'')

/-- C1 counterexample: with records of ids 5 and 7 sharing the key
`("12001", "5")`, the stored cell carries the id-5 record's payload
(`"10"`), not the maximum-id record's payload (`"20"`): the stored cell is
not derived from the record with the maximum id. -/
theorem reconcile_max_id_refuted :
    cellOf (get_measurements []
        [("5", [⟨5, "12001", "5", "10", "u"⟩, ⟨7, "12001", "5", "20", "u"⟩])]
        initState) ("12001", "5") = .ok (some "10") ∧
    recText [] ⟨7, "12001", "5", "20", "u"⟩ = .ok "20" ∧
    (5 : ℤ) < 7 ∧ ("10" : String) ≠ "20" :=
  ⟨rfl, rfl, by decide, by decide⟩
